import Mathlib

/-!
# Verification of the clawapi key-vault / model-switcher repository

Shallow embedding of the persistence and synchronization subsystem of the
repository (files `clawapi.py`, `clawapi-linux.py`, `webui.py`) together with
proofs and refutations of the frozen specification claims.

Modelling conventions:
* Python `dict`s (insertion-ordered, unique keys) are modelled as association
  lists; updating an existing key replaces its value in place, a fresh key is
  appended at the end, matching CPython insertion-order semantics.
* JSON documents are modelled by the inductive `JVal` (strings, integers,
  `null`, objects); the claims never exercise arrays or floats.
* Byte strings are `List Nat`; Python `str.encode`/`bytes.decode` become
  `strBytes`/`bytesStr` over the characters' code points.
* The third-party `cryptography.fernet` and `base64` primitives are modelled
  at their documented contracts (see the doc comments on `fernetEncrypt`,
  `b64encode`): authenticated encryption whose decryption is a left inverse of
  encryption and rejects invalid tokens, and an injective text armoring with a
  left-inverse decoder.  Python functions that can raise are modelled with
  `Option`, `none` standing for an uncaught exception.
-/

namespace Clawapi

/-- JSON values as produced by Python's `json.loads`, restricted to the shapes
the repository's files actually contain: strings, integers, `null` and
objects (insertion-ordered association lists). -/
inductive JVal where
  | str (s : String)
  | num (n : Int)
  | null
  | obj (fields : List (String × JVal))

abbrev Obj := List (String × JVal)

/-- Python `d[k]` / `k in d` lookup on an insertion-ordered dict. -/
def alistGet {α : Type} : List (String × α) → String → Option α
  | [], _ => none
  | (k, v) :: rest, key => if k = key then some v else alistGet rest key

/-- Python `d[k] = v`: replace in place if the key is present, else append. -/
def alistSet {α : Type} : List (String × α) → String → α → List (String × α)
  | [], key, v => [(key, v)]
  | (k, w) :: rest, key, v =>
      if k = key then (key, v) :: rest else (k, w) :: alistSet rest key v

/-- Python `del d[k]` (on a dict, keys are unique, so removing every
occurrence from the association list is the same operation). -/
def alistDel {α : Type} (l : List (String × α)) (key : String) : List (String × α) :=
  l.filter (fun kv => kv.1 ≠ key)

/-- Python `k in d`. -/
def hasKey {α : Type} (l : List (String × α)) (key : String) : Bool :=
  (alistGet l key).isSome

/-! ## Cryptographic primitives

The repository delegates to `cryptography.fernet.Fernet` and `base64`.
These third-party primitives are modelled at their documented contracts:
Fernet is authenticated encryption (decryption inverts encryption under the
same key and rejects corrupted or truncated tokens), and base64 is an
injective armoring of bytes into text whose decoder is a left inverse and
rejects ill-formed text. -/

/-- Model of `base64.b64encode` at its contract: an injective, executable
armoring of a byte string into printable text (each byte becomes two
characters). -/
def b64encode : List Nat → List Nat
  | [] => []
  | n :: rest => (48 + n / 16) :: (48 + n % 16) :: b64encode rest

/-- Model of `base64.b64decode` at its contract: the left inverse of
`b64encode`; ill-formed text (odd length, here) is rejected, which in Python
surfaces as an exception (`none`). -/
def b64decode : List Nat → Option (List Nat)
  | [] => some []
  | c1 :: c2 :: rest => (b64decode rest).map (fun l => ((c1 - 48) * 16 + (c2 - 48)) :: l)
  | [_] => none

/-- Model of `Fernet(key).encrypt` at its contract: the token determines the
message and is bound to the key; the leading length field plays the role of
the authentication tag. -/
def fernetEncrypt (mk msg : List Nat) : List Nat :=
  msg.length :: (mk ++ msg)

/-- Model of `Fernet(key).decrypt` at its contract: inverts `fernetEncrypt`
under the same key and rejects (raises `InvalidToken`, here `none`) any token
not produced by encryption under this key — in particular corrupted or
truncated tokens. -/
def fernetDecrypt (mk tok : List Nat) : Option (List Nat) :=
  match tok with
  | [] => none
  | n :: rest =>
      if rest.take mk.length = mk ∧ (rest.drop mk.length).length = n then
        some (rest.drop mk.length)
      else none

/-- Python `str.encode()`: the byte string of a text credential (bytes are
identified with Unicode code points; UTF-8 framing is transparent to the
round trip). -/
def strBytes (s : String) : List Nat :=
  s.toList.map Char.toNat

/-- Python `bytes.decode()`: recover text from bytes, raising (`none`) when a
code point is not a valid scalar value. -/
def bytesStr (l : List Nat) : Option String :=
  if _h : ∀ n ∈ l, Nat.isValidChar n then
    some (String.mk (l.map Char.ofNat))
  else none

/-- `encrypt_key` (`clawapi.py` line 67, `clawapi-linux.py` line 86,
`webui.py` line 152): `base64.b64encode(f.encrypt(key.encode())).decode()`. -/
def encrypt_key (mk : List Nat) (key : String) : List Nat :=
  b64encode (fernetEncrypt mk (strBytes key))

/-- `decrypt_key` (`clawapi.py` line 71, `clawapi-linux.py` line 91,
`webui.py` line 157): `f.decrypt(base64.b64decode(encrypted.encode())).decode()`.
`none` models the uncaught exception when base64 decoding or Fernet
decryption fails. -/
def decrypt_key (mk : List Nat) (encrypted : List Nat) : Option String :=
  ((b64decode encrypted).bind (fernetDecrypt mk)).bind bytesStr

/-! ## The encrypted vault (`keys.enc`)

`load_keys`/`save_keys` of `clawapi-linux.py` (lines 96–112): the file is a
JSON object mapping provider identifier to base64 ciphertext; `load_keys`
decrypts every entry inside one `try`, and any failure — missing file,
unparsable JSON, or a single entry failing to decrypt — makes the whole
function return the empty dict.

The on-disk file is modelled after parsing: `none` = the file does not
exist, `some none` = it exists but `json.loads` raises, `some (some m)` = it
parses to the mapping `m`. -/

abbrev KeysFile := Option (Option (List (String × List Nat)))

/-- The dict comprehension
`{provider: decrypt_key(encrypted) for provider, encrypted in data.items()}`:
it raises (`none`) as soon as one entry fails to decrypt. -/
def decryptEntries (mk : List Nat) : List (String × List Nat) → Option (List (String × String))
  | [] => some []
  | (p, e) :: rest =>
      match decrypt_key mk e with
      | none => none
      | some v => (decryptEntries mk rest).map (fun l => (p, v) :: l)

/-- `load_keys` (`clawapi-linux.py` lines 96–105): returns the decrypted
mapping, or `{}` when the file is missing, or when the bare `except:`
catches a JSON or decryption error. -/
def load_keys (mk : List Nat) (file : KeysFile) : List (String × String) :=
  match file with
  | none => []
  | some none => []
  | some (some entries) => (decryptEntries mk entries).getD []

/-- The content `save_keys` (`clawapi-linux.py` lines 107–112) writes:
`{provider: encrypt_key(key) for provider, key in keys.items()}`. -/
def save_keys (mk : List Nat) (keys : List (String × String)) : List (String × List Nat) :=
  keys.map (fun pk => (pk.1, encrypt_key mk pk.2))

/-! ## File write discipline

To settle the atomicity claim, each mutating operation is embedded as the
sequence of filesystem steps it performs.  `open(path, 'w')` truncates the
target immediately; `open(path, 'a')` positions at the end; `write`
appends data to the (possibly just-truncated) content; `os.rename` moves a
file in one step. -/

inductive FileOp where
  | truncateOp (f : String)
  | writeOp (f : String) (data : String)
  | appendOp (f : String) (data : String)
  | renameOp (src dst : String)
  deriving DecidableEq

def FileOp.isRenameOp : FileOp → Bool
  | .renameOp _ _ => true
  | _ => false

/-- A filesystem: file name to content, `none` meaning absent. -/
abbrev FSt := List (String × String)

def applyOp (fs : FSt) : FileOp → FSt
  | .truncateOp f => alistSet fs f ""
  | .writeOp f d => alistSet fs f (((alistGet fs f).getD "") ++ d)
  | .appendOp f d => alistSet fs f (((alistGet fs f).getD "") ++ d)
  | .renameOp src dst =>
      match alistGet fs src with
      | some c => alistSet (alistDel fs src) dst c
      | none => fs

def runOps (fs : FSt) (ops : List FileOp) : FSt :=
  ops.foldl applyOp fs

/-- The steps of `save_keys` (`clawapi.py` lines 84–87, `webui.py`
lines 172–176): `with open(KEYS_FILE, 'w') as f: json.dump(keys, f)` —
truncate the target in place, then write the new content.  `save_keys` of
`clawapi-linux.py` line 111 (`KEYS_FILE.write_text(...)`) performs the same
two steps. -/
def save_keys_ops (content : String) : List FileOp :=
  [.truncateOp "keys.enc", .writeOp "keys.enc" content]

/-- The steps of `save_config` (`clawapi.py` lines 95–97, `webui.py`
lines 185–188). -/
def save_config_ops (content : String) : List FileOp :=
  [.truncateOp "config.json", .writeOp "config.json" content]

/-- The steps of the sync write (`clawapi-linux.py` line 192
`config_path.write_text(...)`, `webui.py` lines 204–205). -/
def sync_write_ops (content : String) : List FileOp :=
  [.truncateOp "openclaw.json", .writeOp "openclaw.json" content]

/-- The steps of `log_activity` (`webui.py` lines 209–214):
`with open(log_file, 'a') as f: f.write(line)`. -/
def log_append_ops (line : String) : List FileOp :=
  [.appendOp "activity.log" line]

/-! ## Sync adapter

`sync_to_openclaw` (`clawapi-linux.py` lines 165–197) and
`update_openclaw_model` (`webui.py` lines 197–207).  The external file is
modelled after parsing: `none` = the file does not exist, `some none` =
it exists but `json.loads` raises (the code then proceeds with `{}`),
`some (some cfg)` = it parses to the object `cfg`. -/

abbrev ExtFile := Option (Option Obj)

/-- Python `if key not in d: d[key] = {}`. -/
def ensureKeyObj (o : Obj) (key : String) : Obj :=
  if hasKey o key then o else alistSet o key (.obj [])

/-- The provider entry written under `models.providers`
(`clawapi-linux.py` lines 184–189). -/
def providerEntry (provider model apiKey : String) : JVal :=
  .obj [("provider", .str provider), ("model", .str model), ("apiKey", .str apiKey)]

/-- The merge performed by `sync_to_openclaw` on the parsed external config
(`clawapi-linux.py` lines 177–189): ensure `models` and `models.providers`
exist, then upsert the `provider:default` entry.  `none` models the uncaught
`TypeError` Python raises when `models` or `providers` is present but not an
object. -/
def syncMerge (cfg : Obj) (provider model apiKey : String) : Option Obj :=
  match alistGet (ensureKeyObj cfg "models") "models" with
  | some (.obj ms) =>
      match alistGet (ensureKeyObj ms "providers") "providers" with
      | some (.obj ps) =>
          some (alistSet (ensureKeyObj cfg "models") "models"
            (.obj (alistSet (ensureKeyObj ms "providers") "providers"
              (.obj (alistSet ps (provider ++ ":default")
                (providerEntry provider model apiKey))))))
      | _ => none
  | _ => none

/-- Result of a sync attempt: `applied cfg` models `return True` with `cfg`
written to the external file, `notFound` models the
`print("⚠ OpenClaw config not found"); return False` branch, and `errored`
models an uncaught exception. -/
inductive SyncOutcome where
  | applied (cfg : Obj)
  | notFound
  | errored

/-- Discriminator for the "sync target missing" status, used to state that
it is distinct from success and from real failures. -/
def SyncOutcome.isNotFound : SyncOutcome → Bool
  | .notFound => true
  | _ => false

/-- `sync_to_openclaw` (`clawapi-linux.py` lines 165–197): pair of the
outcome and the external file afterwards.  A missing file returns `False`
without touching anything; an unparsable file is treated as `{}` by the
`except: config = {}` handler. -/
def sync_to_openclaw (file : ExtFile) (provider model apiKey : String) :
    SyncOutcome × ExtFile :=
  match file with
  | none => (.notFound, none)
  | some parsed =>
      match syncMerge (parsed.getD []) provider model apiKey with
      | some cfg' => (.applied cfg', some (some cfg'))
      | none => (.errored, some parsed)

/-- Navigation to `config["models"]["providers"][q]` in an external
config object, `none` when the path is absent or not object-shaped. -/
def modelsProviderEntry (cfg : Obj) (q : String) : Option JVal :=
  match alistGet cfg "models" with
  | some (.obj ms) =>
      match alistGet ms "providers" with
      | some (.obj ps) => alistGet ps q
      | _ => none
  | _ => none

/-- `update_openclaw_model` (`webui.py` lines 197–207): sets `defaultModel`
then `model` and returns `True`; returns `False` without writing when the
file does not exist.  The same read-modify-write appears in `set_model` of
`clawapi.py` (lines 134–142). -/
def update_openclaw_model (file : Option Obj) (model : String) : Bool × Option Obj :=
  match file with
  | none => (false, none)
  | some cfg =>
      (true, some (alistSet (alistSet cfg "defaultModel" (.str model)) "model" (.str model)))

/-! ## Selection store (`config.json`) -/

/-- Reading the model selected for a provider out of the parsed
`config.json`: `config.get('selected_models', {}).get(pid)`. -/
def lookupSel (cfg : Obj) (provider : String) : Option JVal :=
  match alistGet cfg "selected_models" with
  | some (.obj sel) => alistGet sel provider
  | _ => none

/-- The `config.json` update shared by `set_model` of `clawapi.py`
(lines 126–131) and the `/set_model` route of `webui.py` (lines 784–794):
ensure `selected_models` exists, then store the submitted value under the
provider — with no validation of the value.  The web route stores whatever
`request.form.get('model')` returned: a string (possibly empty) or `None`
(JSON `null`).  `none` models the uncaught `TypeError` when
`selected_models` is present but not an object. -/
def set_model_store (cfg : Obj) (provider : String) (v : JVal) : Option Obj :=
  match alistGet (ensureKeyObj cfg "selected_models") "selected_models" with
  | some (.obj sel) =>
      some (alistSet (ensureKeyObj cfg "selected_models") "selected_models"
        (.obj (alistSet sel provider v)))
  | _ => none

/-- The `/set_model` route of `webui.py` (lines 784–794) as it affects the
selection store: `model` is `request.form.get('model')`. -/
def webui_set_model (cfg : Obj) (provider : String) (model : Option String) : Option Obj :=
  set_model_store cfg provider (match model with | some m => .str m | none => .null)

/-! ## Masked display of credentials -/

/-- The masking in `show_key` of `clawapi-linux.py` (line 243):
`key[:8] + "..." + key[-4:] if len(key) > 12 else "***"`. -/
def show_key_mask (key : List Char) : List Char :=
  if 12 < key.length then
    key.take 8 ++ ('.' :: '.' :: '.' :: []) ++ key.drop (key.length - 4)
  else
    '*' :: '*' :: '*' :: []

/-- `show_key` of `clawapi.py` (line 154):
`f"{decrypt_key(keys[pid][:10])}...{decrypt_key(keys[pid])[-4:]}"` — note
that it decrypts the first ten characters *of the stored base64 token*.
`none` models the uncaught `InvalidToken` exception. -/
def clawapi_show_key (mk : List Nat) (tok : List Nat) : Option String :=
  (decrypt_key mk (tok.take 10)).bind (fun front =>
    (decrypt_key mk tok).map (fun full =>
      front ++ "..." ++ String.mk (full.toList.drop (full.toList.length - 4))))

/-! ## Removing a provider -/

/-- Python's substring test `needle in hay` on strings. -/
def strIn (needle : List Char) : List Char → Bool
  | [] => needle.isEmpty
  | c :: rest => needle.isPrefixOf (c :: rest) || strIn needle rest

/-- The `config.json` part of provider removal
(`webui.py` lines 774–775, `clawapi.py` lines 161–164):
`if 'selected_models' in config and provider in config['selected_models']:
del config['selected_models'][provider]`.  When `selected_models` is a
string, Python's `in` is a substring test and the subsequent `del` raises;
on any other non-object it raises directly — both modelled by `none`. -/
def selRemove (cfg : Obj) (provider : String) : Option Obj :=
  match alistGet cfg "selected_models" with
  | none => some cfg
  | some (.obj sel) =>
      if (alistGet sel provider).isSome then
        some (alistSet cfg "selected_models" (.obj (alistDel sel provider)))
      else some cfg
  | some (.str s) =>
      if strIn provider.toList s.toList then none else some cfg
  | some _ => none

/-- The `/remove_key/<provider>` route of `webui.py` (lines 767–782): delete
the provider from the keys dict if present, delete its entry from
`selected_models` if present, save both files. -/
def webui_remove_key (keys : List (String × String)) (cfg : Obj) (provider : String) :
    Option (List (String × String) × Obj) :=
  (selRemove cfg provider).map (fun cfg' => (alistDel keys provider, cfg'))

/-- `remove_provider` of `clawapi.py` (lines 156–167): only acts when the
provider has a vault entry; otherwise prints "Provider not configured" and
changes nothing. -/
def clawapi_remove_provider (keys : List (String × String)) (cfg : Obj) (provider : String) :
    Option (List (String × String) × Obj) :=
  if (alistGet keys provider).isSome then
    (selRemove cfg provider).map (fun cfg' => (alistDel keys provider, cfg'))
  else some (keys, cfg)

/-! ## Activity log (`activity.log`)

`log_activity` and `get_activity_logs` of `webui.py` (lines 209–235). -/

/-- Python `str.strip()`'s default whitespace characters (ASCII subset,
which is all the log format produces). -/
def isPySpace (c : Char) : Bool :=
  c = ' ' || c = '\t' || c = '\n' || c = '\r' || c = '\x0b' || c = '\x0c'

/-- Python `str.strip()`. -/
def pyStrip (l : List Char) : List Char :=
  ((l.dropWhile isPySpace).reverse.dropWhile isPySpace).reverse

/-- Python `s.split(sep, 1)` when it yields two parts: the text before the
first occurrence of `c` and the text after it; `none` when `c` does not
occur (one part). -/
def splitOnce (c : Char) : List Char → Option (List Char × List Char)
  | [] => none
  | x :: xs =>
      if x = c then some ([], xs)
      else (splitOnce c xs).map (fun p => (x :: p.1, p.2))

/-- Python `str.upper()` on the ASCII level names the code uses. -/
def upperL (l : List Char) : List Char :=
  l.map Char.toUpper

/-- A parsed log record as built by `get_activity_logs`:
`{'time': ..., 'message': ..., 'level': ...}`. -/
structure LogRec where
  time : List Char
  message : List Char
  level : List Char
  deriving DecidableEq

/-- The per-line parse of `get_activity_logs` (`webui.py` lines 223–234):
split at the first `]`, delete every `[` from the first part to get the
time, strip the rest as the message; the level defaults to `"info"` and is
re-split out of the message only when the message itself contains `[`. -/
def parseLine (line : List Char) : Option LogRec :=
  match splitOnce ']' (pyStrip line) with
  | none => none
  | some (p0, p1) =>
      let time := p0.filter (fun c => c ≠ '[')
      let msg0 := pyStrip p1
      if '[' ∈ msg0 then
        match splitOnce ']' msg0 with
        | some (a, b) => some ⟨time, pyStrip b, pyStrip a⟩
        | none => some ⟨time, msg0, 'i' :: 'n' :: 'f' :: 'o' :: []⟩
      else some ⟨time, msg0, 'i' :: 'n' :: 'f' :: 'o' :: []⟩

/-- Python `lines[-limit:]`: the last `limit` lines — except that
`lines[-0:]` is the whole list. -/
def pyTail {α : Type} (l : List α) (limit : Nat) : List α :=
  if limit = 0 then l else l.drop (l.length - limit)

/-- `get_activity_logs` (`webui.py` lines 216–235): parse the last `limit`
lines, skipping lines without `]`, and reverse the result (newest first). -/
def get_activity_logs (lines : List (List Char)) (limit : Nat) : List LogRec :=
  ((pyTail lines limit).filterMap parseLine).reverse

/-- The line `log_activity` (`webui.py` lines 209–214) appends:
`f"{timestamp} [{level.upper()}] {message}\n"`. -/
def mkLogLine (timestamp level message : List Char) : List Char :=
  timestamp ++ (' ' :: '[' :: []) ++ upperL level ++ (']' :: ' ' :: []) ++ message ++ ('\n' :: [])

/-! ## Concrete demonstration data used by witnesses and counterexamples -/

/-- A concrete master key for concrete evaluations. -/
def demoMK : List Nat := [1, 2, 3, 4]

/-- A vault with one valid entry and one corrupted ciphertext. -/
def demoCorruptVault : List (String × List Nat) :=
  [("openai", encrypt_key demoMK "sk-test"), ("anthropic", [99])]

/-- The external config produced by the Linux CLI scenario of claim C4
(`put` / `set` against `{"foo": 1}`). -/
def c4_actualExternal : Obj :=
  [("foo", .num 1),
   ("models", .obj [("providers", .obj
     [("anthropic:default", .obj
       [("provider", .str "anthropic"),
        ("model", .str "claude-sonnet-4-6"),
        ("apiKey", .str "key123")])])])]

/-- The external config after the web UI's `set_model` (which calls
`update_openclaw_model`) starting from `{"foo": 1}`. -/
def c4_webuiExternal : Obj :=
  [("foo", .num 1),
   ("defaultModel", .str "claude-sonnet-4-6"),
   ("model", .str "claude-sonnet-4-6")]

/-- The selection store used by the C8 counterexample. -/
def c8cfg : Obj := [("selected_models", .obj [("openai", .str "")])]

/-- Vault contents for the C10 witness. -/
def c10keys : List (String × String) := [("openai", "A"), ("anthropic", "B")]

/-- Selection store for the C10 witness. -/
def c10cfg : Obj :=
  [("selected_models", .obj [("openai", .str "gpt-4o"), ("anthropic", .str "claude")])]

/-- Vault contents after removing `"openai"`. -/
def c10keysAfter : List (String × String) := [("anthropic", "B")]

/-- Selection store after removing `"openai"`. -/
def c10cfgAfter : Obj :=
  [("selected_models", .obj [("anthropic", .str "claude")])]

/-- An external config with an unrelated field, for the C5 witness. -/
def c5_before : Obj := [("theme", .str "dark")]

/-- The external config after `pushSelection` against `c5_before`. -/
def c5_after : Obj :=
  [("theme", .str "dark"),
   ("models", .obj [("providers", .obj
     [("anthropic:default",
       providerEntry "anthropic" "claude-sonnet-4-6" "key123")])])]

/-! ## Supporting lemmas -/

theorem alistGet_set_self {α : Type} (l : List (String × α)) (k : String) (v : α) :
    alistGet (alistSet l k v) k = some v := by
  induction l with
  | nil => simp [alistGet, alistSet]
  | cons kv rest ih =>
      obtain ⟨k', w⟩ := kv
      by_cases h : k' = k
      · simp [alistSet, alistGet, h]
      · simp [alistSet, alistGet, h, ih]

theorem alistGet_set_ne {α : Type} (l : List (String × α)) (k q : String) (v : α)
    (hq : q ≠ k) : alistGet (alistSet l k v) q = alistGet l q := by
  induction l with
  | nil => simp [alistGet, alistSet, Ne.symm hq]
  | cons kv rest ih =>
      obtain ⟨k', w⟩ := kv
      by_cases h : k' = k
      · subst h
        simp [alistSet, alistGet, Ne.symm hq]
      · simp only [alistSet, if_neg h]
        by_cases h' : k' = q
        · simp [alistGet, h']
        · simp [alistGet, h', ih]

theorem alistGet_del_self {α : Type} (l : List (String × α)) (k : String) :
    alistGet (alistDel l k) k = none := by
  induction l with
  | nil => simp [alistGet, alistDel]
  | cons kv rest ih =>
      obtain ⟨k', w⟩ := kv
      by_cases h : k' = k
      · simpa [alistDel, List.filter_cons, h] using ih
      · simpa [alistDel, List.filter_cons, alistGet, h] using ih

theorem alistGet_del_ne {α : Type} (l : List (String × α)) (k q : String)
    (hq : q ≠ k) : alistGet (alistDel l k) q = alistGet l q := by
  induction l with
  | nil => simp [alistDel]
  | cons kv rest ih =>
      obtain ⟨k', w⟩ := kv
      by_cases h : k' = k
      · subst h
        simpa [alistDel, List.filter_cons, alistGet, Ne.symm hq] using ih
      · by_cases h' : k' = q
        · simp [alistDel, List.filter_cons, alistGet, h, h', hq]
        · simpa [alistDel, List.filter_cons, alistGet, h, h'] using ih

theorem b64_roundtrip (l : List Nat) : b64decode (b64encode l) = some l := by
  induction l with
  | nil => rfl
  | cons n rest ih =>
      simp only [b64encode, b64decode, ih, Option.map_some']
      congr 1
      have h1 : 48 + n / 16 - 48 = n / 16 := by omega
      have h2 : 48 + n % 16 - 48 = n % 16 := by omega
      rw [h1, h2]
      congr 1
      omega

theorem fernet_roundtrip (mk msg : List Nat) :
    fernetDecrypt mk (fernetEncrypt mk msg) = some msg := by
  simp [fernetEncrypt, fernetDecrypt, List.take_left, List.drop_left]

theorem bytesStr_strBytes (s : String) : bytesStr (strBytes s) = some s := by
  have hvalid : ∀ n ∈ strBytes s, Nat.isValidChar n := by
    intro n hn
    simp only [strBytes, List.mem_map] at hn
    obtain ⟨c, _, rfl⟩ := hn
    exact c.valid
  have hmap : (strBytes s).map Char.ofNat = s.toList := by
    unfold strBytes
    rw [List.map_map]
    have hcomp : (Char.ofNat ∘ Char.toNat) = id := by
      funext c
      simp [Function.comp, Char.ofNat_toNat]
    rw [hcomp, List.map_id]
  rw [bytesStr, dif_pos hvalid, hmap]
  cases s
  rfl

theorem decrypt_encrypt_key (mk : List Nat) (key : String) :
    decrypt_key mk (encrypt_key mk key) = some key := by
  simp [decrypt_key, encrypt_key, b64_roundtrip, fernet_roundtrip, bytesStr_strBytes]

theorem load_save_keys (mk : List Nat) (keys : List (String × String)) :
    load_keys mk (some (some (save_keys mk keys))) = keys := by
  have h : decryptEntries mk (save_keys mk keys) = some keys := by
    induction keys with
    | nil => rfl
    | cons pk rest ih =>
        obtain ⟨p, k⟩ := pk
        simp [save_keys, decryptEntries, decrypt_encrypt_key] at ih ⊢
        exact ih
  simp [load_keys, h]

theorem decryptEntries_fail (mk : List Nat) (entries : List (String × List Nat))
    (p : String) (e : List Nat) (hmem : (p, e) ∈ entries)
    (hfail : decrypt_key mk e = none) : decryptEntries mk entries = none := by
  induction entries with
  | nil => cases hmem
  | cons pe rest ih =>
      obtain ⟨p', e'⟩ := pe
      rcases List.mem_cons.mp hmem with heq | hmem'
      · cases heq
        simp [decryptEntries, hfail]
      · cases hd : decrypt_key mk e' with
        | none => simp [decryptEntries, hd]
        | some v => simp [decryptEntries, hd, ih hmem']

/-! ## Claims -/

/-- Claim C1: for every provider identifier and every credential string,
storing the credential in the vault and then reading it back returns the
original credential exactly; equivalently
`decrypt_key (encrypt_key cred) = cred` for every string `cred`. -/
theorem c1_roundtrip :
    (∀ (mk : List Nat) (cred : String),
        decrypt_key mk (encrypt_key mk cred) = some cred) ∧
    (∀ (mk : List Nat) (keys : List (String × String)),
        load_keys mk (some (some (save_keys mk keys))) = keys) ∧
    (∀ (mk : List Nat) (keys : List (String × String)) (pid cred : String),
        alistGet (load_keys mk (some (some (save_keys mk (alistSet keys pid cred))))) pid
          = some cred) :=
  ⟨decrypt_encrypt_key, load_save_keys, fun mk keys pid cred => by
    rw [load_save_keys, alistGet_set_self]⟩

/-- Counterexample to claim C3: a vault holding one entry that decrypts
(`"openai"`) and one corrupted ciphertext (`"anthropic"`) is read by
`load_keys` as the *empty* mapping — the valid identifier is lost, instead
of only the corrupted one being treated as absent. -/
theorem c3_counterexample :
    decrypt_key demoMK (encrypt_key demoMK "sk-test") = some "sk-test" ∧
    decrypt_key demoMK [99] = none ∧
    load_keys demoMK (some (some demoCorruptVault)) = [] := by
  refine ⟨by decide, by decide, by decide⟩

/-- Claim C3 (amended): `load_keys` returns all entries when every
ciphertext decrypts, but as soon as a single entry's ciphertext is corrupted
the bare `except:` makes the whole read return the empty mapping — every
entry, valid or not, is then treated as absent. -/
theorem c3_load_keys_behavior :
    (∀ (mk : List Nat) (entries : List (String × List Nat)) (m : List (String × String)),
        decryptEntries mk entries = some m →
        load_keys mk (some (some entries)) = m) ∧
    (∀ (mk : List Nat) (entries : List (String × List Nat)) (p : String) (e : List Nat),
        (p, e) ∈ entries → decrypt_key mk e = none →
        load_keys mk (some (some entries)) = []) := by
  constructor
  · intro mk entries m h
    simp [load_keys, h]
  · intro mk entries p e hmem hfail
    simp [load_keys, decryptEntries_fail mk entries p e hmem hfail]

/-- Witness for C3's amended theorem at a fully valid vault and at the
concrete corrupted vault. -/
theorem c3_witness :
    decryptEntries demoMK [("openai", encrypt_key demoMK "sk-test")]
      = some [("openai", "sk-test")] ∧
    load_keys demoMK (some (some [("openai", encrypt_key demoMK "sk-test")]))
      = [("openai", "sk-test")] ∧
    ("anthropic", [99]) ∈ demoCorruptVault ∧
    decrypt_key demoMK [99] = none ∧
    load_keys demoMK (some (some demoCorruptVault)) = [] :=
  ⟨by decide,
    c3_load_keys_behavior.1 demoMK [("openai", encrypt_key demoMK "sk-test")]
      [("openai", "sk-test")] (by decide),
    by decide, by decide,
    c3_load_keys_behavior.2 demoMK demoCorruptVault "anthropic" [99] (by decide) (by decide)⟩

/-- Counterexample to claim C2: `save_keys` begins by truncating
`keys.enc` in place (first step of `open(path, 'w')`), performs no rename at
all, and a crash right after the first step leaves the file empty — not
byte-identical to its pre-write state `"OLD"`. -/
theorem c2_counterexample :
    runOps [("keys.enc", "OLD")] ((save_keys_ops "NEW").take 1) = [("keys.enc", "")] ∧
    (runOps [("keys.enc", "OLD")] ((save_keys_ops "NEW").take 1)
      == [("keys.enc", "OLD")]) = false ∧
    ((save_keys_ops "NEW").filter FileOp.isRenameOp).length = 0 ∧
    (save_keys_ops "NEW").head? = some (.truncateOp "keys.enc") := by
  refine ⟨by decide, by decide, by decide, by decide⟩

/-- Claim C2 (amended): no mutating operation uses a temporary file or a
rename.  The vault, selection-store and sync writes open their target with
truncation and rewrite it in place, so a crash between the truncation and
the write leaves the target empty rather than byte-identical to its
pre-write state; the log write opens in append mode. -/
theorem c2_write_behavior :
    ∀ (old new : String),
      runOps [("keys.enc", old)] (save_keys_ops new) = [("keys.enc", new)] ∧
      runOps [("keys.enc", old)] ((save_keys_ops new).take 1) = [("keys.enc", "")] ∧
      (save_keys_ops new).filter FileOp.isRenameOp = [] ∧
      runOps [("config.json", old)] (save_config_ops new) = [("config.json", new)] ∧
      runOps [("config.json", old)] ((save_config_ops new).take 1) = [("config.json", "")] ∧
      (save_config_ops new).filter FileOp.isRenameOp = [] ∧
      runOps [("openclaw.json", old)] (sync_write_ops new) = [("openclaw.json", new)] ∧
      runOps [("openclaw.json", old)] ((sync_write_ops new).take 1) = [("openclaw.json", "")] ∧
      (sync_write_ops new).filter FileOp.isRenameOp = [] ∧
      runOps [("activity.log", old)] (log_append_ops new) = [("activity.log", old ++ new)] ∧
      (log_append_ops new).filter FileOp.isRenameOp = [] := by
  intro old new
  refine ⟨?_, ?_, ?_, ?_, ?_, ?_, ?_, ?_, ?_, ?_, ?_⟩ <;>
    simp [runOps, applyOp, save_keys_ops, save_config_ops, sync_write_ops,
      log_append_ops, alistSet, alistGet, FileOp.isRenameOp]

/-- Counterexample to claim C7: the cross-platform variant's `show_key`
(`clawapi.py` line 154) decrypts the first ten characters *of the stored
base64 token*; on the claim's own example credential
`"sk-ABCDEFGHIJKLMNOP"` (which is validly stored: the full token decrypts)
this always fails, so the command raises instead of returning a masked
string beginning with the credential's first 8 characters. -/
theorem c7_counterexample :
    decrypt_key demoMK (encrypt_key demoMK "sk-ABCDEFGHIJKLMNOP")
      = some "sk-ABCDEFGHIJKLMNOP" ∧
    clawapi_show_key demoMK (encrypt_key demoMK "sk-ABCDEFGHIJKLMNOP") = none := by
  refine ⟨by decide, by decide⟩

/-- Claim C7 (amended): the Linux implementation's masking satisfies the
claim — for a credential longer than 12 characters the displayed string is
its first 8 characters, then the redaction marker `"..."`, then its last 4
characters; for anything of length at most 12 the fixed marker `"***"` is
shown, revealing nothing of the credential.  (The cross-platform variant's
`show_key` instead fails on every stored credential, see the
counterexample.) -/
theorem c7_masking :
    ∀ (key : List Char),
      (12 < key.length →
        show_key_mask key =
          key.take 8 ++ ('.' :: '.' :: '.' :: []) ++ key.drop (key.length - 4)) ∧
      (key.length ≤ 12 → show_key_mask key = '*' :: '*' :: '*' :: []) := by
  intro key
  constructor
  · intro h
    simp [show_key_mask, h]
  · intro h
    simp [show_key_mask, Nat.not_lt.mpr h]

/-- Witness for C7's theorem on the claim's example credentials. -/
theorem c7_witness :
    12 < ("sk-ABCDEFGHIJKLMNOP".toList).length ∧
    show_key_mask "sk-ABCDEFGHIJKLMNOP".toList =
      "sk-ABCDE".toList ++ ('.' :: '.' :: '.' :: []) ++ "MNOP".toList ∧
    ("abcdef".toList).length ≤ 12 ∧
    show_key_mask "abcdef".toList = '*' :: '*' :: '*' :: [] := by
  refine ⟨by decide, ?_, by decide, ?_⟩
  · rw [(c7_masking "sk-ABCDEFGHIJKLMNOP".toList).1 (by decide)]
    decide
  · exact (c7_masking "abcdef".toList).2 (by decide)

/-- Counterexample to claim C4: running the claimed scenario's
`pushSelection` (`sync_to_openclaw`) against the external config
`(foo: 1)` upserts the `anthropic:default` entry but leaves the external
config with *no* `model` key and *no* `defaultModel` key — the claimed
final object requires both to equal `"claude-sonnet-4-6"`. -/
theorem c4_counterexample :
    sync_to_openclaw (some (some [("foo", JVal.num 1)]))
        "anthropic" "claude-sonnet-4-6" "key123"
      = (.applied c4_actualExternal, some (some c4_actualExternal)) ∧
    alistGet c4_actualExternal "model" = none ∧
    alistGet c4_actualExternal "defaultModel" = none :=
  ⟨rfl, rfl, rfl⟩

/-- Claim C4 (amended): after `put("anthropic", "key123")` the stored
credential reads back, and `pushSelection` against `(foo: 1)` yields exactly
`(foo: 1, models: (providers: (anthropic:default: (provider, model,
apiKey))))` — without `model` or `defaultModel`.  Those two keys are set
only by the web UI's `setModel` path (`update_openclaw_model`), which
conversely never touches `models.providers`; running `pushSelection` after
that path yields the union of both effects (semantically the claimed
object). -/
theorem c4_scenario :
    load_keys demoMK (some (some (save_keys demoMK [("anthropic", "key123")])))
      = [("anthropic", "key123")] ∧
    sync_to_openclaw (some (some [("foo", JVal.num 1)]))
        "anthropic" "claude-sonnet-4-6" "key123"
      = (.applied c4_actualExternal, some (some c4_actualExternal)) ∧
    update_openclaw_model (some [("foo", JVal.num 1)]) "claude-sonnet-4-6"
      = (true, some c4_webuiExternal) ∧
    syncMerge c4_webuiExternal "anthropic" "claude-sonnet-4-6" "key123"
      = some (c4_webuiExternal ++
          [("models", .obj [("providers", .obj
            [("anthropic:default",
              providerEntry "anthropic" "claude-sonnet-4-6" "key123")])])]) :=
  ⟨load_save_keys demoMK [("anthropic", "key123")], rfl, rfl, rfl⟩

/-- Claim C6: when the external configuration file does not exist,
`sync_to_openclaw` returns its distinct "not found" status
(`return False` after the warning) and leaves the external file untouched;
the status is a different value from both a successful sync and a real
failure.  `update_openclaw_model` of the web UI likewise returns `False`
and writes nothing. -/
theorem c6_not_found :
    (∀ (provider model apiKey : String),
        sync_to_openclaw none provider model apiKey = (SyncOutcome.notFound, none)) ∧
    SyncOutcome.notFound.isNotFound = true ∧
    (∀ (cfg : Obj), (SyncOutcome.applied cfg).isNotFound = false) ∧
    SyncOutcome.errored.isNotFound = false ∧
    (∀ (model : String), update_openclaw_model none model = (false, none)) :=
  ⟨fun _ _ _ => rfl, rfl, fun _ => rfl, rfl, fun _ => rfl⟩

/-- Claim C5: a successful `pushSelection` preserves every top-level field
other than `models` (in particular `model`, `defaultModel` and any unrelated
field such as `theme` are untouched by it), and inside `models.providers`
every entry other than the upserted `provider:default` one keeps its
value. -/
theorem c5_preservation :
    ∀ (cfg cfg' : Obj) (provider model apiKey k q : String) (f : ExtFile),
      sync_to_openclaw (some (some cfg)) provider model apiKey
        = (.applied cfg', f) →
      (k ≠ "models" → alistGet cfg' k = alistGet cfg k) ∧
      (q ≠ provider ++ ":default" →
        modelsProviderEntry cfg' q = modelsProviderEntry cfg q) := by
  intro cfg cfg' provider model apiKey k q f h
  have hsm : syncMerge cfg provider model apiKey = some cfg' := by
    rcases hs : syncMerge cfg provider model apiKey with _ | c
    · simp [sync_to_openclaw, hs] at h
    · simp [sync_to_openclaw, hs] at h
      rw [h.1]
  clear h
  cases hm : alistGet cfg "models" with
  | none =>
      simp [syncMerge, ensureKeyObj, hasKey, hm, alistGet_set_self, alistGet, alistSet] at hsm
      subst hsm
      constructor
      · intro hk
        rw [alistGet_set_ne _ _ _ _ hk, alistGet_set_ne _ _ _ _ hk]
      · intro hq
        simp [modelsProviderEntry, alistGet_set_self, alistGet, hm, Ne.symm hq]
  | some v =>
      cases v with
      | obj ms =>
          cases hp : alistGet ms "providers" with
          | none =>
              simp [syncMerge, ensureKeyObj, hasKey, hm, hp, alistGet_set_self,
                alistGet, alistSet] at hsm
              subst hsm
              constructor
              · intro hk
                rw [alistGet_set_ne _ _ _ _ hk]
              · intro hq
                simp [modelsProviderEntry, alistGet_set_self, alistGet, hm, hp, Ne.symm hq]
          | some w =>
              cases w with
              | obj ps =>
                  simp [syncMerge, ensureKeyObj, hasKey, hm, hp] at hsm
                  subst hsm
                  constructor
                  · intro hk
                    rw [alistGet_set_ne _ _ _ _ hk]
                  · intro hq
                    simp [modelsProviderEntry, alistGet_set_self, hm, hp,
                      alistGet_set_ne ps (provider ++ ":default") q
                        (providerEntry provider model apiKey) hq]
              | str s => simp [syncMerge, ensureKeyObj, hasKey, hm, hp] at hsm
              | num n => simp [syncMerge, ensureKeyObj, hasKey, hm, hp] at hsm
              | null => simp [syncMerge, ensureKeyObj, hasKey, hm, hp] at hsm
      | str s => simp [syncMerge, ensureKeyObj, hasKey, hm] at hsm
      | num n => simp [syncMerge, ensureKeyObj, hasKey, hm] at hsm
      | null => simp [syncMerge, ensureKeyObj, hasKey, hm] at hsm

/-- Witness for C5 at an external config containing `"theme": "dark"`. -/
theorem c5_witness :
    sync_to_openclaw (some (some c5_before)) "anthropic" "claude-sonnet-4-6" "key123"
      = (.applied c5_after, some (some c5_after)) ∧
    alistGet c5_after "theme" = alistGet c5_before "theme" ∧
    modelsProviderEntry c5_after "openai:default"
      = modelsProviderEntry c5_before "openai:default" := by
  have h : sync_to_openclaw (some (some c5_before)) "anthropic" "claude-sonnet-4-6" "key123"
      = (.applied c5_after, some (some c5_after)) := rfl
  have hc := c5_preservation c5_before c5_after "anthropic" "claude-sonnet-4-6" "key123"
    "theme" "openai:default" (some (some c5_after)) h
  exact ⟨h, hc.1 (by decide), hc.2 (by decide)⟩

/-- Counterexample to claim C8: submitting an *empty* model name through
the web UI's `set_model` is not rejected — the selection store is modified,
storing `""` under the provider (and an absent model field is stored as
`null`), with no error surfaced. -/
theorem c8_counterexample :
    webui_set_model [] "openai" (some "") = some c8cfg ∧
    lookupSel c8cfg "openai" = some (.str "") ∧
    lookupSel [] "openai" = none ∧
    webui_set_model [] "openai" none
      = some [("selected_models", .obj [("openai", .null)])] :=
  ⟨rfl, rfl, rfl, rfl⟩

/-- Claim C8 (amended): `setModel` performs no validation of the model
name: any submitted value — the empty string, or `null` when the form field
is absent — is stored in `selected_models` under the provider exactly like
a real model name, and no error is raised. -/
theorem c8_set_model_stores :
    ∀ (cfg : Obj) (provider m : String) (cfg' : Obj),
      (webui_set_model cfg provider (some m) = some cfg' →
        lookupSel cfg' provider = some (.str m)) ∧
      (webui_set_model cfg provider none = some cfg' →
        lookupSel cfg' provider = some .null) := by
  intro cfg provider m cfg'
  have key : ∀ (v : JVal), set_model_store cfg provider v = some cfg' →
      lookupSel cfg' provider = some v := by
    intro v h
    cases hs : alistGet cfg "selected_models" with
    | none =>
        simp [set_model_store, ensureKeyObj, hasKey, hs, alistGet_set_self,
          alistGet, alistSet] at h
        subst h
        simp [lookupSel, alistGet_set_self, alistGet]
    | some w =>
        cases w with
        | obj sel =>
            simp [set_model_store, ensureKeyObj, hasKey, hs] at h
            subst h
            simp [lookupSel, alistGet_set_self]
        | str s => simp [set_model_store, ensureKeyObj, hasKey, hs] at h
        | num n => simp [set_model_store, ensureKeyObj, hasKey, hs] at h
        | null => simp [set_model_store, ensureKeyObj, hasKey, hs] at h
  exact ⟨key (.str m), key .null⟩

/-- Witness for C8's amended theorem at the empty and at the absent model
name. -/
theorem c8_witness :
    webui_set_model [] "openai" (some "") = some c8cfg ∧
    lookupSel c8cfg "openai" = some (.str "") ∧
    webui_set_model [] "openai" none
      = some [("selected_models", .obj [("openai", .null)])] ∧
    lookupSel [("selected_models", .obj [("openai", .null)])] "openai" = some .null :=
  ⟨rfl, (c8_set_model_stores [] "openai" "" c8cfg).1 rfl, rfl,
    (c8_set_model_stores [] "openai" ""
      [("selected_models", .obj [("openai", .null)])]).2 rfl⟩

theorem selRemove_spec (cfg : Obj) (provider : String) (cfg' : Obj)
    (h : selRemove cfg provider = some cfg') :
    lookupSel cfg' provider = none ∧
    (∀ q, q ≠ provider → lookupSel cfg' q = lookupSel cfg q) := by
  cases hs : alistGet cfg "selected_models" with
  | none =>
      simp [selRemove, hs] at h
      subst h
      exact ⟨by simp [lookupSel, hs], fun q hq => rfl⟩
  | some w =>
      cases w with
      | obj sel =>
          by_cases ho : (alistGet sel provider).isSome
          · simp [selRemove, hs, ho] at h
            subst h
            constructor
            · simp [lookupSel, alistGet_set_self, alistGet_del_self]
            · intro q hq
              simp [lookupSel, alistGet_set_self, hs, alistGet_del_ne sel provider q hq]
          · simp [selRemove, hs, ho] at h
            subst h
            constructor
            · simp [lookupSel, hs, Option.not_isSome_iff_eq_none.mp ho]
            · intro q hq
              rfl
      | str s =>
          cases hin : strIn provider.toList s.toList with
          | true =>
              have hin' : strIn provider.data s.data = true := hin
              simp [selRemove, hs, hin'] at h
          | false =>
              have hin' : strIn provider.data s.data = false := hin
              simp [selRemove, hs, hin'] at h
              subst h
              exact ⟨by simp [lookupSel, hs], fun q hq => rfl⟩
      | num n => simp [selRemove, hs] at h
      | null => simp [selRemove, hs] at h

/-- Claim C10: removing a provider (web UI route, and the CLI variant when
the provider has a vault entry) deletes both the provider's vault entry and
its `selected_models` entry, and leaves every other provider's vault entry
and selection unchanged. -/
theorem c10_remove :
    ∀ (keys : List (String × String)) (cfg : Obj) (provider : String)
      (keys' : List (String × String)) (cfg' : Obj),
      (webui_remove_key keys cfg provider = some (keys', cfg') →
        alistGet keys' provider = none ∧
        lookupSel cfg' provider = none ∧
        (∀ q, q ≠ provider →
          alistGet keys' q = alistGet keys q ∧ lookupSel cfg' q = lookupSel cfg q)) ∧
      ((alistGet keys provider).isSome →
        clawapi_remove_provider keys cfg provider = some (keys', cfg') →
        alistGet keys' provider = none ∧
        lookupSel cfg' provider = none ∧
        (∀ q, q ≠ provider →
          alistGet keys' q = alistGet keys q ∧ lookupSel cfg' q = lookupSel cfg q)) := by
  intro keys cfg provider keys' cfg'
  have core : (selRemove cfg provider).map
        (fun cfg'' => (alistDel keys provider, cfg'')) = some (keys', cfg') →
      alistGet keys' provider = none ∧
      lookupSel cfg' provider = none ∧
      (∀ q, q ≠ provider →
        alistGet keys' q = alistGet keys q ∧ lookupSel cfg' q = lookupSel cfg q) := by
    intro h
    rcases hsel : selRemove cfg provider with _ | c
    · simp [hsel] at h
    · simp [hsel] at h
      obtain ⟨hk, hc⟩ := h
      subst hk
      subst hc
      obtain ⟨h1, h2⟩ := selRemove_spec cfg provider c hsel
      exact ⟨alistGet_del_self keys provider, h1,
        fun q hq => ⟨alistGet_del_ne keys provider q hq, h2 q hq⟩⟩
  constructor
  · intro h
    exact core h
  · intro hin h
    rw [clawapi_remove_provider, if_pos hin] at h
    exact core h

/-- Witness for C10 at a concrete two-provider state. -/
theorem c10_witness :
    webui_remove_key c10keys c10cfg "openai" = some (c10keysAfter, c10cfgAfter) ∧
    alistGet c10keysAfter "openai" = none ∧
    lookupSel c10cfgAfter "openai" = none ∧
    alistGet c10keysAfter "anthropic" = alistGet c10keys "anthropic" ∧
    lookupSel c10cfgAfter "anthropic" = lookupSel c10cfg "anthropic" ∧
    clawapi_remove_provider c10keys c10cfg "openai"
      = some (c10keysAfter, c10cfgAfter) := by
  have h : webui_remove_key c10keys c10cfg "openai"
      = some (c10keysAfter, c10cfgAfter) := rfl
  have h2 : clawapi_remove_provider c10keys c10cfg "openai"
      = some (c10keysAfter, c10cfgAfter) := rfl
  have hc := (c10_remove c10keys c10cfg "openai" c10keysAfter c10cfgAfter).1 h
  have hc2 := (c10_remove c10keys c10cfg "openai" c10keysAfter c10cfgAfter).2 (by decide) h2
  exact ⟨h, hc2.1, hc.2.1, (hc.2.2 "anthropic" (by decide)).1,
    (hc.2.2 "anthropic" (by decide)).2, h2⟩

theorem dropWhile_append_of_eq_self {α : Type} (p : α → Bool) (l₁ l₂ : List α)
    (h : l₁.dropWhile p = l₁) (hne : l₁ ≠ []) :
    (l₁ ++ l₂).dropWhile p = l₁ ++ l₂ := by
  cases l₁ with
  | nil => exact absurd rfl hne
  | cons a t =>
      rw [List.dropWhile_cons] at h
      by_cases hp : p a = true
      · rw [if_pos hp] at h
        have hlen : (t.dropWhile p).length ≤ t.length := (List.dropWhile_sublist p).length_le
        rw [h] at hlen
        simp at hlen
      · rw [List.cons_append, List.dropWhile_cons, if_neg hp]

theorem pyStrip_of_no_edge_space (l : List Char)
    (h1 : l.dropWhile isPySpace = l) (h2 : l.reverse.dropWhile isPySpace = l.reverse) :
    pyStrip l = l := by
  unfold pyStrip
  rw [h1, h2, List.reverse_reverse]

theorem mem_pyStrip {c : Char} {l : List Char} (h : c ∈ pyStrip l) : c ∈ l := by
  unfold pyStrip at h
  rw [List.mem_reverse] at h
  have h' := List.dropWhile_subset _ h
  rw [List.mem_reverse] at h'
  exact List.dropWhile_subset _ h'

theorem splitOnce_eq_none {c : Char} {l : List Char} (h : c ∉ l) : splitOnce c l = none := by
  induction l with
  | nil => rfl
  | cons x xs ih =>
      have hx : x ≠ c := fun he => h (he ▸ List.mem_cons_self x xs)
      have hxs : c ∉ xs := fun hm => h (List.mem_cons_of_mem x hm)
      simp [splitOnce, hx, ih hxs]

theorem splitOnce_append_left (c : Char) (l₁ l₂ : List Char) (h : c ∉ l₁) :
    splitOnce c (l₁ ++ l₂) = (splitOnce c l₂).map (fun pr => (l₁ ++ pr.1, pr.2)) := by
  induction l₁ with
  | nil => simp
  | cons x xs ih =>
      have hx : x ≠ c := fun he => h (he ▸ List.mem_cons_self x xs)
      have hxs : c ∉ xs := fun hm => h (List.mem_cons_of_mem x hm)
      have hstep : splitOnce c ((x :: xs) ++ l₂)
          = (splitOnce c (xs ++ l₂)).map (fun p => (x :: p.1, p.2)) := by
        rw [List.cons_append]
        simp [splitOnce, hx]
      rw [hstep, ih hxs, Option.map_map]
      rfl

/-- Counterexample to claim C9: a well-formed log line
`"2024-01-01 00:00:00 [ERROR] boom"` written by `log_activity` is parsed by
`get_activity_logs` into time `"2024-01-01 00:00:00 ERROR"` (the level folded
into the time field, `[` deleted), message `"boom"`, and level `"info"` —
not into its `(timestamp, level, message)` components; moreover with
`limit = 0` the whole log is returned instead of at most `0` entries. -/
theorem c9_counterexample :
    get_activity_logs
        [mkLogLine "2024-01-01 00:00:00".toList "error".toList "boom".toList] 1
      = [⟨"2024-01-01 00:00:00 ERROR".toList, "boom".toList, "info".toList⟩] ∧
    (("info".toList : List Char) == "error".toList) = false ∧
    (("info".toList : List Char) == "ERROR".toList) = false ∧
    (("2024-01-01 00:00:00 ERROR".toList : List Char) == "2024-01-01 00:00:00".toList)
      = false ∧
    (get_activity_logs
        [mkLogLine "t1".toList "info".toList "a".toList,
         mkLogLine "t2".toList "info".toList "b".toList] 0).length = 2 := by
  refine ⟨by decide, by decide, by decide, by decide, by decide⟩

/-- Claim C9 (amended): for `limit ≥ 1`, `get_activity_logs` returns at most
`limit` entries, taken from the tail of the log and reversed to newest
first, and every line without `]` is skipped; but a well-formed line
`"ts [LEVEL] msg"` is parsed with time component `ts ++ " " ++ LEVEL`
(every `[` deleted from the text before the first `]`), message `msg`, and
level defaulting to `"info"` — the logged level ends up inside the time
field, not the level field.  With `limit = 0` the entire log is returned. -/
theorem c9_recent_behavior :
    (∀ (lines : List (List Char)) (limit : Nat), 1 ≤ limit →
        (get_activity_logs lines limit).length ≤ limit) ∧
    (∀ (lines : List (List Char)) (limit : Nat), 1 ≤ limit →
        get_activity_logs lines limit
          = ((lines.drop (lines.length - limit)).filterMap parseLine).reverse) ∧
    (∀ (lines : List (List Char)),
        get_activity_logs lines 0 = (lines.filterMap parseLine).reverse) ∧
    (∀ (l : List Char), ']' ∉ l → parseLine l = none) ∧
    (∀ (ts lvl msg : List Char),
        ts ≠ [] → ts.dropWhile isPySpace = ts →
        '[' ∉ ts → ']' ∉ ts →
        '[' ∉ upperL lvl → ']' ∉ upperL lvl →
        msg ≠ [] → msg.dropWhile isPySpace = msg →
        msg.reverse.dropWhile isPySpace = msg.reverse →
        '[' ∉ msg →
        parseLine (mkLogLine ts lvl msg)
          = some ⟨ts ++ ' ' :: upperL lvl, msg, 'i' :: 'n' :: 'f' :: 'o' :: []⟩) := by
  refine ⟨?_, ?_, ?_, ?_, ?_⟩
  · intro lines limit h
    simp only [get_activity_logs, pyTail, if_neg (by omega : ¬ limit = 0)]
    rw [List.length_reverse]
    have h1 := List.length_filterMap_le parseLine (lines.drop (lines.length - limit))
    have h2 := List.length_drop (lines.length - limit) lines
    omega
  · intro lines limit h
    simp only [get_activity_logs, pyTail, if_neg (by omega : ¬ limit = 0)]
  · intro lines
    rfl
  · intro l h
    have h2 : ']' ∉ pyStrip l := fun hm => h (mem_pyStrip hm)
    unfold parseLine
    rw [splitOnce_eq_none h2]
  · intro ts lvl msg hts1 hts2 htsb1 htsb2 hlvl1 hlvl2 hmsg1 hmsg2 hmsg3 hmsg4
    -- the stripped line
    have hform : mkLogLine ts lvl msg
        = ts ++ ((' ' :: '[' :: (upperL lvl ++ ']' :: ' ' :: msg)) ++ ('\n' :: [])) := by
      simp [mkLogLine]
    have hfront : (mkLogLine ts lvl msg).dropWhile isPySpace = mkLogLine ts lvl msg := by
      rw [hform]
      exact dropWhile_append_of_eq_self _ _ _ hts2 hts1
    have hAform : ts ++ (' ' :: '[' :: (upperL lvl ++ ']' :: ' ' :: msg))
        = (ts ++ ' ' :: '[' :: (upperL lvl ++ ']' :: ' ' :: [])) ++ msg := by
      simp
    have hrev : (mkLogLine ts lvl msg).reverse.dropWhile isPySpace
        = (ts ++ (' ' :: '[' :: (upperL lvl ++ ']' :: ' ' :: msg))).reverse := by
      have h0 : mkLogLine ts lvl msg
          = (ts ++ (' ' :: '[' :: (upperL lvl ++ ']' :: ' ' :: msg))) ++ ('\n' :: []) := by
        simp [mkLogLine]
      rw [h0, List.reverse_append]
      show List.dropWhile isPySpace
          ('\n' :: (ts ++ (' ' :: '[' :: (upperL lvl ++ ']' :: ' ' :: msg))).reverse) = _
      rw [List.dropWhile_cons, if_pos (by decide : isPySpace '\n' = true)]
      rw [hAform, List.reverse_append]
      exact dropWhile_append_of_eq_self _ _ _ hmsg3 (by
        intro hrev0
        exact hmsg1 (by simpa using congrArg List.reverse hrev0))
  -- strip = line without the trailing newline
    have hstrip : pyStrip (mkLogLine ts lvl msg)
        = ts ++ (' ' :: '[' :: (upperL lvl ++ ']' :: ' ' :: msg)) := by
      unfold pyStrip
      rw [hfront, hrev, List.reverse_reverse]
    -- split at the first `]`
    have hP : (']' : Char) ∉ ts ++ ' ' :: '[' :: upperL lvl := by
      intro hm
      rcases List.mem_append.mp hm with h' | h'
      · exact htsb2 h'
      · rcases List.mem_cons.mp h' with h'' | h''
        · exact absurd h'' (by decide)
        · rcases List.mem_cons.mp h'' with h3 | h3
          · exact absurd h3 (by decide)
          · exact hlvl2 h3
    have hsplit : splitOnce ']' (ts ++ (' ' :: '[' :: (upperL lvl ++ ']' :: ' ' :: msg)))
        = some (ts ++ ' ' :: '[' :: upperL lvl, ' ' :: msg) := by
      have hA2 : ts ++ (' ' :: '[' :: (upperL lvl ++ ']' :: ' ' :: msg))
          = (ts ++ ' ' :: '[' :: upperL lvl) ++ ']' :: ' ' :: msg := by
        simp
      rw [hA2, splitOnce_append_left _ _ _ hP]
      rw [show splitOnce ']' (']' :: ' ' :: msg) = some ([], ' ' :: msg) from by
        simp [splitOnce]]
      simp
    -- the time field
    have hts_f : List.filter (fun c => decide (c ≠ '[')) ts = ts :=
      List.filter_eq_self.mpr (by
        intro a ha
        simp only [decide_eq_true_eq]
        rintro rfl
        exact htsb1 ha)
    have hlvl_f : List.filter (fun c => decide (c ≠ '[')) (upperL lvl) = upperL lvl :=
      List.filter_eq_self.mpr (by
        intro a ha
        simp only [decide_eq_true_eq]
        rintro rfl
        exact hlvl1 ha)
    have htime : (ts ++ ' ' :: '[' :: upperL lvl).filter (fun c => c ≠ '[')
        = ts ++ ' ' :: upperL lvl := by
      rw [List.filter_append, hts_f]
      congr 1
      rw [List.filter_cons_of_pos (by decide), List.filter_cons_of_neg (by decide), hlvl_f]
    -- the message field
    have hmsg0 : pyStrip (' ' :: msg) = msg := by
      unfold pyStrip
      rw [List.dropWhile_cons, if_pos (by decide : isPySpace ' ' = true)]
      rw [hmsg2, hmsg3, List.reverse_reverse]
    unfold parseLine
    rw [hstrip, hsplit]
    simp only [hmsg0, htime]
    rw [if_neg hmsg4]

/-- Witness for C9's amended theorem: the length bound at `limit = 1` and
the per-line parse shape at a concrete well-formed log line. -/
theorem c9_witness :
    (get_activity_logs
        [mkLogLine "2024-01-01 00:00:00".toList "error".toList "boom".toList] 1).length ≤ 1 ∧
    get_activity_logs
        [mkLogLine "t1".toList "info".toList "a".toList,
         mkLogLine "t2".toList "info".toList "b".toList] 1
      = (([mkLogLine "t1".toList "info".toList "a".toList,
           mkLogLine "t2".toList "info".toList "b".toList].drop 1).filterMap parseLine).reverse ∧
    get_activity_logs [mkLogLine "t1".toList "info".toList "a".toList] 0
      = ([mkLogLine "t1".toList "info".toList "a".toList].filterMap parseLine).reverse ∧
    parseLine "no closing bracket".toList = none ∧
    parseLine (mkLogLine "2024-01-01 00:00:00".toList "error".toList "boom".toList)
      = some ⟨"2024-01-01 00:00:00".toList ++ ' ' :: upperL "error".toList,
          "boom".toList, 'i' :: 'n' :: 'f' :: 'o' :: []⟩ := by
  refine ⟨?_, ?_, ?_, ?_, ?_⟩
  · exact c9_recent_behavior.1
      [mkLogLine "2024-01-01 00:00:00".toList "error".toList "boom".toList] 1 (by decide)
  · exact c9_recent_behavior.2.1
      [mkLogLine "t1".toList "info".toList "a".toList,
       mkLogLine "t2".toList "info".toList "b".toList] 1 (by decide)
  · exact c9_recent_behavior.2.2.1 [mkLogLine "t1".toList "info".toList "a".toList]
  · exact c9_recent_behavior.2.2.2.1 "no closing bracket".toList (by decide)
  · exact c9_recent_behavior.2.2.2.2 "2024-01-01 00:00:00".toList "error".toList "boom".toList
      (by decide) (by decide) (by decide) (by decide) (by decide) (by decide)
      (by decide) (by decide) (by decide) (by decide)

end Clawapi
